import Mathlib

/-!
Shallow embedding of the scope tracker in mypy/scope.py.

The tracker's state is the four fields of class Scope: the optional module
name, the class stack, the optional active function, and the counter of
absorbed (ignored) nested scopes.  Python assertions are modelled by
returning Option: a query or leave operation that would fail its assert
returns none.  Python truthiness of an Optional[str] field is modelled
exactly: both None and the empty string are falsy.  The ignored counter is
an Int, as Python integers are unbounded and signed; non-negativity is an
invariant to be proved, not baked into the type.
-/

/-- Identifier data of mypy.nodes.TypeInfo used by scope.py: short name and
fully-qualified name. -/
structure TypeInfo where
  name : String
  fullname : String
deriving DecidableEq

/-- Identifier data of mypy.nodes.FuncBase used by scope.py: short name and
fully-qualified name. -/
structure FuncBase where
  name : String
  fullname : String
deriving DecidableEq

/-- SavedScope = Tuple[str, Optional[TypeInfo], Optional[FuncBase]]. -/
abbrev SavedScope : Type := String × Option TypeInfo × Option FuncBase

/-- The mutable state of class Scope. -/
structure Scope where
  module : Option String
  classes : List TypeInfo
  function : Option FuncBase
  ignored : Int
deriving DecidableEq

/-- Python truthiness test used by the asserts: passes exactly when the
module field is a non-empty string, and yields that string. -/
def Scope.moduleCheck (s : Scope) : Option String :=
  match s.module with
  | some m => if m = "" then none else some m
  | none => none

/-- Scope.current_module_id: assert self.module; return self.module. -/
def Scope.current_module_id (s : Scope) : Option String :=
  s.moduleCheck

/-- Scope.current_target: assert self.module; if a function is active
return its fullname with the empty string substituted by the or-default,
else return the module. -/
def Scope.current_target (s : Scope) : Option String :=
  match s.moduleCheck with
  | none => none
  | some m =>
    match s.function with
    | some f => some (if f.fullname = "" then "" else f.fullname)
    | none => some m

/-- Scope.current_full_target: assert self.module; function fullname if a
function is active, else the innermost class fullname, else the module. -/
def Scope.current_full_target (s : Scope) : Option String :=
  match s.moduleCheck with
  | none => none
  | some m =>
    match s.function with
    | some f => some f.fullname
    | none =>
      match s.classes.getLast? with
      | some c => some c.fullname
      | none => some m

/-- Scope.current_type_name: classes[-1].name if classes else None.
No assertion: the outer layer is always some. -/
def Scope.current_type_name (s : Scope) : Option (Option String) :=
  some (s.classes.getLast?.map TypeInfo.name)

/-- Scope.current_function_name: function.name if function else None.
No assertion: the outer layer is always some. -/
def Scope.current_function_name (s : Scope) : Option (Option String) :=
  some (s.function.map FuncBase.name)

/-- Entry half of Scope.module_scope: set the module, clear everything
else. -/
def Scope.enter_module (s : Scope) (pref : String) : Scope :=
  { s with module := some pref, classes := [], function := none, ignored := 0 }

/-- Exit half of Scope.module_scope: assert self.module, then clear it. -/
def Scope.leave_module (s : Scope) : Option Scope :=
  match s.moduleCheck with
  | none => none
  | some _ => some { s with module := none }

/-- Entry half of Scope.function_scope: make fdef active if no function is
active, otherwise absorb the nested definition into the counter. -/
def Scope.enter_function (s : Scope) (fdef : FuncBase) : Scope :=
  match s.function with
  | none => { s with function := some fdef }
  | some _ => { s with ignored := s.ignored + 1 }

/-- Exit half of Scope.function_scope: pop an absorbed scope if the counter
is truthy, otherwise assert a function is active and clear it. -/
def Scope.leave_function (s : Scope) : Option Scope :=
  if s.ignored ≠ 0 then some { s with ignored := s.ignored - 1 }
  else if s.function = none then none
  else some { s with function := none }

/-- Scope.enter_class: push onto the class stack unless a function is
active, in which case absorb into the counter. -/
def Scope.enter_class (s : Scope) (info : TypeInfo) : Scope :=
  match s.function with
  | none => { s with classes := s.classes ++ [info] }
  | some _ => { s with ignored := s.ignored + 1 }

/-- Scope.leave_class: pop an absorbed scope if the counter is truthy,
otherwise assert the stack is non-empty and pop the innermost class. -/
def Scope.leave_class (s : Scope) : Option Scope :=
  if s.ignored ≠ 0 then some { s with ignored := s.ignored - 1 }
  else if s.classes = [] then none
  else some { s with classes := s.classes.dropLast }

/-- Scope.save: assert self.module; snapshot the module, the innermost
class if any, and the function. -/
def Scope.save (s : Scope) : Option SavedScope :=
  match s.moduleCheck with
  | none => none
  | some m => some (m, s.classes.getLast?, s.function)

/-- Entry part of Scope.saved_scope: enter a module scope with the saved
module, then the saved class scope if present, then the saved function
scope if present. -/
def Scope.enter_saved (s : Scope) (saved : SavedScope) : Scope :=
  match saved with
  | (m, oc, ofn) =>
    let s1 := s.enter_module m
    let s2 := match oc with | some c => s1.enter_class c | none => s1
    match ofn with | some f => s2.enter_function f | none => s2

/-- Exit part of Scope.saved_scope: leave the function scope if one was
entered, then the class scope if one was entered, then the module scope. -/
def Scope.leave_saved (s : Scope) (saved : SavedScope) : Option Scope :=
  match saved with
  | (_, oc, ofn) =>
    let s1 := match ofn with | some _ => s.leave_function | none => some s
    match s1 with
    | none => none
    | some t =>
      let t1 := match oc with | some _ => t.leave_class | none => some t
      match t1 with
      | none => none
      | some u => u.leave_module

/-- The freshly-constructed tracker: all fields empty. -/
def initScope : Scope := ⟨none, [], none, 0⟩

/-- One transition of the tracker: any enter operation, or any leave
operation whose assertion passes. -/
inductive Step : Scope → Scope → Prop where
  | enterModule {s : Scope} (m : String) : Step s (s.enter_module m)
  | leaveModule {s s' : Scope} : s.leave_module = some s' → Step s s'
  | enterFunction {s : Scope} (f : FuncBase) : Step s (s.enter_function f)
  | leaveFunction {s s' : Scope} : s.leave_function = some s' → Step s s'
  | enterClass {s : Scope} (c : TypeInfo) : Step s (s.enter_class c)
  | leaveClass {s s' : Scope} : s.leave_class = some s' → Step s s'

/-- States reachable from the freshly-constructed tracker. -/
inductive Reachable : Scope → Prop where
  | init : Reachable initScope
  | step {s s' : Scope} : Reachable s → Step s s' → Reachable s'

/-- Strictly paired sequences of scope operations: empty, or one scoped
region (an enter, its body, and the matching leave) followed by the rest
of the sequence. -/
inductive ScopeSeq where
  | nil : ScopeSeq
  | mod : String → ScopeSeq → ScopeSeq → ScopeSeq
  | fn : FuncBase → ScopeSeq → ScopeSeq → ScopeSeq
  | cls : TypeInfo → ScopeSeq → ScopeSeq → ScopeSeq
deriving DecidableEq

/-- Run a strictly paired sequence: each region runs its enter, its body,
and the matching leave, then the rest of the sequence. -/
def runSeq : ScopeSeq → Scope → Option Scope
  | .nil, s => some s
  | .mod m body rest, s =>
      ((runSeq body (s.enter_module m)).bind Scope.leave_module).bind (runSeq rest)
  | .fn f body rest, s =>
      ((runSeq body (s.enter_function f)).bind Scope.leave_function).bind (runSeq rest)
  | .cls c body rest, s =>
      ((runSeq body (s.enter_class c)).bind Scope.leave_class).bind (runSeq rest)

/-- True when a strictly paired sequence contains no module region. -/
def seqNoModule : ScopeSeq → Bool
  | .nil => true
  | .mod _ _ _ => false
  | .fn _ body rest => seqNoModule body && seqNoModule rest
  | .cls _ body rest => seqNoModule body && seqNoModule rest

/-- States whose ignored counter is coherent with the active function:
non-negative, and zero whenever no function is active. -/
def ScopeValid (s : Scope) : Prop :=
  (s.function = none → s.ignored = 0) ∧ 0 ≤ s.ignored

/-- Claim C1: with a module active, current_target returns the active
function's fully-qualified name when a function is active, and the module
name otherwise. -/
theorem current_target_spec (s : Scope) (m : String)
    (hm : s.module = some m) (hne : m ≠ "") :
    (∀ f : FuncBase, s.function = some f → s.current_target = some f.fullname) ∧
    (s.function = none → s.current_target = some m) := by
  constructor
  · intro f hf
    simp only [Scope.current_target, Scope.moduleCheck, hm, if_neg hne, hf]
    by_cases h : f.fullname = "" <;> simp [h]
  · intro hf
    simp only [Scope.current_target, Scope.moduleCheck, hm, if_neg hne, hf]

/-- Witness for C1 at a concrete scope. -/
theorem current_target_spec_witness :
    Scope.current_target ⟨some "m", [], some ⟨"g", "m.g"⟩, 0⟩ = some "m.g" :=
  (current_target_spec ⟨some "m", [], some ⟨"g", "m.g"⟩, 0⟩ "m" rfl (by decide)).1
    ⟨"g", "m.g"⟩ rfl

/-- Claim C9: with module m active and an active function whose
fully-qualified name is the empty string, current_target returns the empty
string, which differs from both the module name and the function's short
name. -/
theorem empty_fullname_target :
    Scope.current_target ⟨some "m", [], some ⟨"g", ""⟩, 0⟩ = some "" ∧
    ("" : String) ≠ "m" ∧ ("" : String) ≠ "g" := by
  refine ⟨by decide, by decide, by decide⟩

/-- Claim C5: with a module active, current_full_target returns the
function fullname if a function is active; else, inside a class body, the
innermost class fullname while current_target still returns the module
name; else the module name. -/
theorem current_full_target_spec (s : Scope) (m : String)
    (hm : s.module = some m) (hne : m ≠ "") :
    (∀ f : FuncBase, s.function = some f →
      s.current_full_target = some f.fullname) ∧
    (∀ c : TypeInfo, s.function = none → s.classes.getLast? = some c →
      s.current_full_target = some c.fullname ∧ s.current_target = some m) ∧
    (s.function = none → s.classes = [] → s.current_full_target = some m) := by
  refine ⟨?_, ?_, ?_⟩
  · intro f hf
    simp only [Scope.current_full_target, Scope.moduleCheck, hm, if_neg hne, hf]
  · intro c hf hc
    constructor
    · simp only [Scope.current_full_target, Scope.moduleCheck, hm, if_neg hne, hf, hc]
    · simp only [Scope.current_target, Scope.moduleCheck, hm, if_neg hne, hf]
  · intro hf hc
    simp only [Scope.current_full_target, Scope.moduleCheck, hm, if_neg hne, hf, hc,
      List.getLast?_nil]

/-- Witness for C5 at a concrete scope inside a class body. -/
theorem current_full_target_spec_witness :
    Scope.current_full_target ⟨some "m", [⟨"C", "m.C"⟩], none, 0⟩ = some "m.C" ∧
    Scope.current_target ⟨some "m", [⟨"C", "m.C"⟩], none, 0⟩ = some "m" :=
  (current_full_target_spec ⟨some "m", [⟨"C", "m.C"⟩], none, 0⟩ "m" rfl
    (by decide)).2.1 ⟨"C", "m.C"⟩ rfl rfl

/-- Claim C3: entering a function while one is active increments the
ignored counter and leaves the active function unchanged, and the matching
leave restores the exact prior state. -/
theorem nested_function_absorbed (s : Scope) (f g : FuncBase)
    (h : s.function = some f) (hnn : 0 ≤ s.ignored) :
    (s.enter_function g).ignored = s.ignored + 1 ∧
    (s.enter_function g).function = s.function ∧
    (s.enter_function g).leave_function = some s := by
  obtain ⟨mo, cl, fn, ig⟩ := s
  simp only at h hnn
  subst h
  refine ⟨rfl, rfl, ?_⟩
  have hne : ig + 1 ≠ 0 := by omega
  simp [Scope.enter_function, Scope.leave_function, hne, Int.add_sub_cancel]

/-- Witness for C3 at a concrete scope. -/
theorem nested_function_absorbed_witness :
    (Scope.enter_function ⟨some "m", [], some ⟨"f", "m.f"⟩, 0⟩ ⟨"g", "m.f.g"⟩).ignored
        = 0 + 1 ∧
    (Scope.enter_function ⟨some "m", [], some ⟨"f", "m.f"⟩, 0⟩ ⟨"g", "m.f.g"⟩).function
        = some ⟨"f", "m.f"⟩ ∧
    (Scope.enter_function ⟨some "m", [], some ⟨"f", "m.f"⟩, 0⟩ ⟨"g", "m.f.g"⟩).leave_function
        = some ⟨some "m", [], some ⟨"f", "m.f"⟩, 0⟩ :=
  nested_function_absorbed ⟨some "m", [], some ⟨"f", "m.f"⟩, 0⟩ ⟨"f", "m.f"⟩
    ⟨"g", "m.f.g"⟩ rfl (by decide)

/-- Claim C7: entering a class while a function is active increments the
ignored counter, does not modify the class stack, and does not change
current_full_target. -/
theorem enter_class_in_function_frame (s : Scope) (f : FuncBase) (c : TypeInfo)
    (h : s.function = some f) :
    (s.enter_class c).ignored = s.ignored + 1 ∧
    (s.enter_class c).classes = s.classes ∧
    (s.enter_class c).current_full_target = s.current_full_target := by
  obtain ⟨mo, cl, fn, ig⟩ := s
  simp only at h
  subst h
  refine ⟨rfl, rfl, rfl⟩

/-- Witness for C7 at a concrete scope. -/
theorem enter_class_in_function_frame_witness :
    (Scope.enter_class ⟨some "m", [], some ⟨"f", "m.f"⟩, 0⟩ ⟨"C", "m.f.C"⟩).ignored
        = 0 + 1 ∧
    (Scope.enter_class ⟨some "m", [], some ⟨"f", "m.f"⟩, 0⟩ ⟨"C", "m.f.C"⟩).classes
        = [] ∧
    (Scope.enter_class ⟨some "m", [], some ⟨"f", "m.f"⟩, 0⟩ ⟨"C", "m.f.C"⟩).current_full_target
        = Scope.current_full_target ⟨some "m", [], some ⟨"f", "m.f"⟩, 0⟩ :=
  enter_class_in_function_frame ⟨some "m", [], some ⟨"f", "m.f"⟩, 0⟩
    ⟨"f", "m.f"⟩ ⟨"C", "m.f.C"⟩ rfl

/-- The module truthiness check passes exactly for a non-empty module. -/
theorem moduleCheck_eq_some (s : Scope) (m : String) :
    s.moduleCheck = some m ↔ s.module = some m ∧ m ≠ "" := by
  unfold Scope.moduleCheck
  cases s.module with
  | none => simp
  | some m' =>
      by_cases hne : m' = ""
      · subst hne
        simp only [if_pos rfl]
        constructor
        · intro h; exact Option.noConfusion h
        · rintro ⟨h1, h2⟩
          exact absurd (Option.some.inj h1).symm h2
      · simp only [if_neg hne]
        constructor
        · intro h
          exact ⟨h, (Option.some.inj h) ▸ hne⟩
        · intro h
          exact h.1

/-- Characterisation of a successful save. -/
theorem save_eq_some {s : Scope} {m : String} {oc : Option TypeInfo}
    {ofn : Option FuncBase} (h : s.save = some (m, oc, ofn)) :
    s.module = some m ∧ m ≠ "" ∧ oc = s.classes.getLast? ∧ ofn = s.function := by
  unfold Scope.save at h
  split at h
  · exact Option.noConfusion h
  · next m' hmc =>
      rw [Option.some.injEq, Prod.mk.injEq, Prod.mk.injEq] at h
      obtain ⟨h1, h2, h3⟩ := h
      obtain ⟨hmod, hne⟩ := (moduleCheck_eq_some s m').mp hmc
      exact ⟨h1 ▸ hmod, h1 ▸ hne, h2.symm, h3.symm⟩

/-- Claim C6 (amended): with no active module, current_module_id,
current_target and current_full_target fail their assertion, while
current_type_name and current_function_name still return successfully. -/
theorem queries_no_module (s : Scope) (h : s.module = none) :
    s.current_module_id = none ∧ s.current_target = none ∧
    s.current_full_target = none ∧
    s.current_type_name = some (s.classes.getLast?.map TypeInfo.name) ∧
    s.current_function_name = some (s.function.map FuncBase.name) := by
  refine ⟨?_, ?_, ?_, rfl, rfl⟩ <;>
    simp [Scope.current_module_id, Scope.current_target, Scope.current_full_target,
      Scope.moduleCheck, h]

/-- Witness for the amended C6 at a concrete scope. -/
theorem queries_no_module_witness :
    Scope.current_module_id ⟨none, [⟨"C", "C"⟩], some ⟨"f", "f"⟩, 0⟩ = none ∧
    Scope.current_target ⟨none, [⟨"C", "C"⟩], some ⟨"f", "f"⟩, 0⟩ = none ∧
    Scope.current_full_target ⟨none, [⟨"C", "C"⟩], some ⟨"f", "f"⟩, 0⟩ = none ∧
    Scope.current_type_name ⟨none, [⟨"C", "C"⟩], some ⟨"f", "f"⟩, 0⟩
        = some (([⟨"C", "C"⟩] : List TypeInfo).getLast?.map TypeInfo.name) ∧
    Scope.current_function_name ⟨none, [⟨"C", "C"⟩], some ⟨"f", "f"⟩, 0⟩
        = some ((some (⟨"f", "f"⟩ : FuncBase)).map FuncBase.name) :=
  queries_no_module ⟨none, [⟨"C", "C"⟩], some ⟨"f", "f"⟩, 0⟩ rfl

/-- Counterexample to claim C6 as stated: in a state with no active
module, current_type_name and current_function_name do not fail; each
returns successfully (the value None). -/
theorem queries_no_module_cex :
    Scope.current_type_name ⟨none, [], none, 0⟩ ≠ none ∧
    Scope.current_type_name ⟨none, [], none, 0⟩ = some none ∧
    Scope.current_function_name ⟨none, [], none, 0⟩ ≠ none ∧
    Scope.current_function_name ⟨none, [], none, 0⟩ = some none := by
  refine ⟨by decide, rfl, by decide, rfl⟩

/-- Every single transition preserves non-negativity of the ignored
counter. -/
theorem step_ignored_nonneg {s s' : Scope} (hst : Step s s')
    (h : 0 ≤ s.ignored) : 0 ≤ s'.ignored := by
  cases hst with
  | enterModule m => simp [Scope.enter_module]
  | enterFunction f =>
      cases hf : s.function <;> simp [Scope.enter_function, hf] <;> omega
  | enterClass c =>
      cases hf : s.function <;> simp [Scope.enter_class, hf] <;> omega
  | leaveModule hl =>
      unfold Scope.leave_module at hl
      split at hl
      · exact Option.noConfusion hl
      · cases hl
        exact h
  | leaveFunction hl =>
      unfold Scope.leave_function at hl
      split at hl
      · next hcond =>
          cases hl
          show 0 ≤ s.ignored - 1
          omega
      · split at hl
        · exact Option.noConfusion hl
        · cases hl
          exact h
  | leaveClass hl =>
      unfold Scope.leave_class at hl
      split at hl
      · next hcond =>
          cases hl
          show 0 ≤ s.ignored - 1
          omega
      · split at hl
        · exact Option.noConfusion hl
        · cases hl
          exact h

/-- Claim C8: in every reachable state the ignored counter is
non-negative. -/
theorem reachable_ignored_nonneg (s : Scope) (h : Reachable s) :
    0 ≤ s.ignored := by
  induction h with
  | init => exact le_refl 0
  | step hr hst ih => exact step_ignored_nonneg hst ih

/-- Witness for C8 at a reachable concrete state. -/
theorem reachable_ignored_nonneg_witness :
    0 ≤ (Scope.enter_function (Scope.enter_module initScope "m") ⟨"f", "m.f"⟩).ignored :=
  reachable_ignored_nonneg _
    (Reachable.step (Reachable.step Reachable.init (@Step.enterModule initScope "m"))
      (@Step.enterFunction (Scope.enter_module initScope "m") ⟨"f", "m.f"⟩))

/-- The state produced by entering a restored scope, in closed form: it
does not depend on the state it is entered from. -/
theorem enter_saved_fields (t : Scope) (m : String) (oc : Option TypeInfo)
    (ofn : Option FuncBase) :
    t.enter_saved (m, oc, ofn) =
      ⟨some m, (match oc with | some c => [c] | none => []), ofn, 0⟩ := by
  cases oc <;> cases ofn <;> rfl

/-- Claim C2: entering a restored scope, from any state whatever,
reproduces all five query results exactly as they were at the moment of
the save. -/
theorem saved_scope_queries (s t : Scope) (sv : SavedScope) (h : s.save = some sv) :
    (t.enter_saved sv).current_module_id = s.current_module_id ∧
    (t.enter_saved sv).current_target = s.current_target ∧
    (t.enter_saved sv).current_full_target = s.current_full_target ∧
    (t.enter_saved sv).current_type_name = s.current_type_name ∧
    (t.enter_saved sv).current_function_name = s.current_function_name := by
  obtain ⟨m, oc, ofn⟩ := sv
  obtain ⟨hmod, hne, hoc, hofn⟩ := save_eq_some h
  rw [enter_saved_fields]
  subst hoc
  subst hofn
  refine ⟨?_, ?_, ?_, ?_, ?_⟩
  · simp [Scope.current_module_id, Scope.moduleCheck, hmod, hne]
  · simp [Scope.current_target, Scope.moduleCheck, hmod, hne]
  · cases hf : s.function <;> cases hcl : s.classes.getLast? <;>
      simp [Scope.current_full_target, Scope.moduleCheck, hmod, hne, hf, hcl]
  · cases hcl : s.classes.getLast? <;> simp [Scope.current_type_name, hcl]
  · simp [Scope.current_function_name]

/-- Witness for C2: a save taken inside a class body, restored from a
different state, answers all five queries identically. -/
theorem saved_scope_queries_witness :
    (Scope.enter_saved ⟨some "x", [], some ⟨"h", "x.h"⟩, 2⟩
        ("m", some ⟨"C", "m.C"⟩, none)).current_module_id
      = Scope.current_module_id ⟨some "m", [⟨"C", "m.C"⟩], none, 0⟩ ∧
    (Scope.enter_saved ⟨some "x", [], some ⟨"h", "x.h"⟩, 2⟩
        ("m", some ⟨"C", "m.C"⟩, none)).current_target
      = Scope.current_target ⟨some "m", [⟨"C", "m.C"⟩], none, 0⟩ ∧
    (Scope.enter_saved ⟨some "x", [], some ⟨"h", "x.h"⟩, 2⟩
        ("m", some ⟨"C", "m.C"⟩, none)).current_full_target
      = Scope.current_full_target ⟨some "m", [⟨"C", "m.C"⟩], none, 0⟩ ∧
    (Scope.enter_saved ⟨some "x", [], some ⟨"h", "x.h"⟩, 2⟩
        ("m", some ⟨"C", "m.C"⟩, none)).current_type_name
      = Scope.current_type_name ⟨some "m", [⟨"C", "m.C"⟩], none, 0⟩ ∧
    (Scope.enter_saved ⟨some "x", [], some ⟨"h", "x.h"⟩, 2⟩
        ("m", some ⟨"C", "m.C"⟩, none)).current_function_name
      = Scope.current_function_name ⟨some "m", [⟨"C", "m.C"⟩], none, 0⟩ :=
  saved_scope_queries ⟨some "m", [⟨"C", "m.C"⟩], none, 0⟩
    ⟨some "x", [], some ⟨"h", "x.h"⟩, 2⟩ ("m", some ⟨"C", "m.C"⟩, none) rfl

/-- Claim C10: leaving a restored scope always ends in the cleared
terminal state: no module is active, and nothing of any enclosing scope is
reinstated, regardless of the state the restore was entered from. -/
theorem leave_saved_clears (s t : Scope) (sv : SavedScope) (h : s.save = some sv) :
    (t.enter_saved sv).leave_saved sv = some initScope := by
  obtain ⟨m, oc, ofn⟩ := sv
  obtain ⟨hmod, hne, hoc, hofn⟩ := save_eq_some h
  rw [enter_saved_fields]
  cases oc <;> cases ofn <;>
    simp [Scope.leave_saved, Scope.leave_function, Scope.leave_class,
      Scope.leave_module, Scope.moduleCheck, hne, initScope]

/-- Witness for C10: restoring a full snapshot inside another module scope
and leaving it ends in the cleared state. -/
theorem leave_saved_clears_witness :
    Scope.leave_saved
      (Scope.enter_saved ⟨some "n", [], none, 0⟩
        ("m", some ⟨"C", "m.C"⟩, some ⟨"f", "m.f"⟩))
      ("m", some ⟨"C", "m.C"⟩, some ⟨"f", "m.f"⟩) = some initScope :=
  leave_saved_clears ⟨some "m", [⟨"C", "m.C"⟩], some ⟨"f", "m.f"⟩, 0⟩
    ⟨some "n", [], none, 0⟩ ("m", some ⟨"C", "m.C"⟩, some ⟨"f", "m.f"⟩) rfl

/-- Counterexample to claim C4 as stated: from the valid in-module state,
the strictly paired sequence enter-module, leave-module ends in the
cleared terminal state, not in the starting state. -/
theorem paired_roundtrip_cex :
    ScopeValid ⟨some "m", [], none, 0⟩ ∧
    runSeq (ScopeSeq.mod "n" ScopeSeq.nil ScopeSeq.nil) ⟨some "m", [], none, 0⟩
      = some ⟨none, [], none, 0⟩ ∧
    (⟨none, [], none, 0⟩ : Scope) ≠ ⟨some "m", [], none, 0⟩ :=
  ⟨⟨fun _ => rfl, le_refl 0⟩, by decide, by decide⟩

/-- Claim C4 (amended): a strictly paired sequence of function and class
regions, run from a valid state, returns the tracker to exactly the
starting state whenever it completes; paired module regions instead clear
the tracker. -/
theorem paired_fn_class_roundtrip (q : ScopeSeq) :
    ∀ s s' : Scope, seqNoModule q = true → ScopeValid s →
      runSeq q s = some s' → s' = s := by
  induction q with
  | nil =>
      intro s s' _ _ h
      simp only [runSeq, Option.some.injEq] at h
      exact h.symm
  | mod m body rest ihb ihr =>
      intro s s' hq
      simp [seqNoModule] at hq
  | fn f body rest ihb ihr =>
      intro s s' hq hv hrun
      simp only [seqNoModule, Bool.and_eq_true] at hq
      simp only [runSeq, Option.bind_eq_some] at hrun
      obtain ⟨s2, ⟨s1, hbody, hleave⟩, hrest⟩ := hrun
      obtain ⟨mo, cl, fn, ig⟩ := s
      cases fn with
      | none =>
          have hig : ig = 0 := hv.1 rfl
          subst hig
          have hs1 : s1 = ⟨mo, cl, some f, 0⟩ :=
            ihb _ _ hq.1 ⟨fun hcon => Option.noConfusion hcon, le_refl 0⟩ hbody
          subst hs1
          have hlv : Scope.leave_function ⟨mo, cl, some f, 0⟩ = some ⟨mo, cl, none, 0⟩ := by
            simp [Scope.leave_function]
          rw [hlv] at hleave
          obtain rfl := Option.some.inj hleave
          exact ihr _ _ hq.2 hv hrest
      | some g =>
          have h2 : (0 : Int) ≤ ig := hv.2
          have hig1 : (ig + 1 : Int) ≠ 0 := by omega
          have hs1 : s1 = ⟨mo, cl, some g, ig + 1⟩ :=
            ihb _ _ hq.1 ⟨fun hcon => Option.noConfusion hcon,
              by show (0 : Int) ≤ ig + 1; omega⟩ hbody
          subst hs1
          have hlv : Scope.leave_function ⟨mo, cl, some g, ig + 1⟩
              = some ⟨mo, cl, some g, ig⟩ := by
            simp [Scope.leave_function, hig1]
          rw [hlv] at hleave
          obtain rfl := Option.some.inj hleave
          exact ihr _ _ hq.2 hv hrest
  | cls c body rest ihb ihr =>
      intro s s' hq hv hrun
      simp only [seqNoModule, Bool.and_eq_true] at hq
      simp only [runSeq, Option.bind_eq_some] at hrun
      obtain ⟨s2, ⟨s1, hbody, hleave⟩, hrest⟩ := hrun
      obtain ⟨mo, cl, fn, ig⟩ := s
      cases fn with
      | none =>
          have hig : ig = 0 := hv.1 rfl
          subst hig
          have hs1 : s1 = ⟨mo, cl ++ [c], none, 0⟩ :=
            ihb _ _ hq.1 ⟨fun _ => rfl, le_refl 0⟩ hbody
          subst hs1
          have hlv : Scope.leave_class ⟨mo, cl ++ [c], none, 0⟩
              = some ⟨mo, cl, none, 0⟩ := by
            simp [Scope.leave_class]
          rw [hlv] at hleave
          obtain rfl := Option.some.inj hleave
          exact ihr _ _ hq.2 hv hrest
      | some g =>
          have h2 : (0 : Int) ≤ ig := hv.2
          have hig1 : (ig + 1 : Int) ≠ 0 := by omega
          have hs1 : s1 = ⟨mo, cl, some g, ig + 1⟩ :=
            ihb _ _ hq.1 ⟨fun hcon => Option.noConfusion hcon,
              by show (0 : Int) ≤ ig + 1; omega⟩ hbody
          subst hs1
          have hlv : Scope.leave_class ⟨mo, cl, some g, ig + 1⟩
              = some ⟨mo, cl, some g, ig⟩ := by
            simp [Scope.leave_class, hig1]
          rw [hlv] at hleave
          obtain rfl := Option.some.inj hleave
          exact ihr _ _ hq.2 hv hrest

/-- Witness for the amended C4: a function region containing an absorbed
class region round-trips the concrete in-module state. -/
theorem paired_fn_class_roundtrip_witness :
    (⟨some "m", [], none, 0⟩ : Scope) = ⟨some "m", [], none, 0⟩ :=
  paired_fn_class_roundtrip
    (ScopeSeq.fn ⟨"f", "m.f"⟩ (ScopeSeq.cls ⟨"C", "m.f.C"⟩ ScopeSeq.nil ScopeSeq.nil)
      ScopeSeq.nil)
    ⟨some "m", [], none, 0⟩ ⟨some "m", [], none, 0⟩ (by decide)
    ⟨fun _ => rfl, le_refl 0⟩ (by decide)
